import Mathlib

/-!
Verification of the Grey Wolf Optimization feature-selection core
(`zoofs/greywolfoptimization.py`) against its natural-language specification.

The per-iteration algorithm of `GreyWolfOptimization.fit` is shallowly embedded
here: fitness values are rationals extended with the `np.inf` sentinel
(`WithTop ℚ`), binary feature masks are rational vectors, random draws appear
as explicit matrix parameters, and the external `sigmoid` collaborator is an
abstract function parameter. All definitions are transcribed from the source;
fidelity notes point at the source lines.
-/

namespace ZoofsGWO

/-- Fitness values: rationals extended with a top element playing the role of
the `np.inf` sentinel that initializes the wolf slots. -/
abbrev Fitness := WithTop ℚ

/-- State of the wolf hierarchy: three named slots (alpha, beta, delta), each
holding a fitness value and a dimension (feature-mask) vector. Mirrors the
attributes `alpha_wolf_dimension`/`alpha_wolf_fitness` etc. set in
`GreyWolfOptimization.fit` (greywolfoptimization.py lines 96-98). -/
structure WolfState where
  alpha_wolf_fitness : Fitness
  beta_wolf_fitness : Fitness
  delta_wolf_fitness : Fitness
  alpha_wolf_dimension : List ℚ
  beta_wolf_dimension : List ℚ
  delta_wolf_dimension : List ℚ
deriving DecidableEq

/-- One pass of the cascading-insertion body of the `for fit, dim in zip(...)`
loop in `fit` (lines 116-140): branch 1 promotes the candidate to alpha while
demoting alpha to beta and beta to delta; branch 2 inserts the candidate at
beta, demoting beta to delta; branch 3 inserts at delta; otherwise the
candidate is discarded. Each branch ends in `continue`, so the branches are
mutually exclusive, and all comparisons are strict as in the source. -/
def updateWolf (s : WolfState) (fit : Fitness) (dim : List ℚ) : WolfState :=
  if fit < s.alpha_wolf_fitness then
    { alpha_wolf_fitness := fit
      beta_wolf_fitness := s.alpha_wolf_fitness
      delta_wolf_fitness := s.beta_wolf_fitness
      alpha_wolf_dimension := dim
      beta_wolf_dimension := s.alpha_wolf_dimension
      delta_wolf_dimension := s.beta_wolf_dimension }
  else if fit > s.alpha_wolf_fitness ∧ fit < s.beta_wolf_fitness then
    { s with
      beta_wolf_fitness := fit
      delta_wolf_fitness := s.beta_wolf_fitness
      beta_wolf_dimension := dim
      delta_wolf_dimension := s.beta_wolf_dimension }
  else if fit > s.beta_wolf_fitness ∧ fit < s.delta_wolf_fitness then
    { s with
      delta_wolf_fitness := fit
      delta_wolf_dimension := dim }
  else s

/-- Folding a sequence of `(fitness, dimension)` candidates into the hierarchy,
in order: the zip-loop of lines 116-140 applied to its candidate list. -/
def foldWolves (s : WolfState) (cands : List (Fitness × List ℚ)) : WolfState :=
  cands.foldl (fun t c => updateWolf t c.1 c.2) s

/-- Initial hierarchy state (lines 96-98): every slot holds `np.inf` and the
all-ones vector `np.ones(n_features)`. -/
def initWolfState (F : ℕ) : WolfState :=
  { alpha_wolf_fitness := ⊤
    beta_wolf_fitness := ⊤
    delta_wolf_fitness := ⊤
    alpha_wolf_dimension := List.replicate F 1
    beta_wolf_dimension := List.replicate F 1
    delta_wolf_dimension := List.replicate F 1 }

/-- The hierarchy-order invariant (minimization case):
`alpha.fitness <= beta.fitness <= delta.fitness`. -/
def HierOrdered (s : WolfState) : Prop :=
  s.alpha_wolf_fitness ≤ s.beta_wolf_fitness ∧
    s.beta_wolf_fitness ≤ s.delta_wolf_fitness

theorem updateWolf_ordered {s : WolfState} (hs : HierOrdered s)
    (fit : Fitness) (dim : List ℚ) : HierOrdered (updateWolf s fit dim) := by
  obtain ⟨h1, h2⟩ := hs
  unfold updateWolf HierOrdered
  split_ifs with hb1 hb2 hb3
  · exact ⟨le_of_lt hb1, h1⟩
  · exact ⟨le_of_lt hb2.1, le_of_lt hb2.2⟩
  · exact ⟨h1, le_of_lt hb3.1⟩
  · exact ⟨h1, h2⟩

theorem foldWolves_ordered {s : WolfState} (hs : HierOrdered s)
    (cands : List (Fitness × List ℚ)) : HierOrdered (foldWolves s cands) := by
  induction cands generalizing s with
  | nil => exact hs
  | cons c rest ih => exact ih (updateWolf_ordered hs c.1 c.2)

/-- Claim C1: starting from the initial hierarchy (all three slots at
`np.inf` fitness with all-ones dimension vectors), after folding any sequence
of candidates through the cascading-insertion rule of lines 116-140 — in
particular the ascending-fitness top-3 candidates of every iteration — the
hierarchy satisfies
`alpha_wolf_fitness ≤ beta_wolf_fitness ≤ delta_wolf_fitness`
(minimization case). -/
theorem hierarchy_order_invariant (F : ℕ) (cands : List (Fitness × List ℚ)) :
    HierOrdered (foldWolves (initWolfState F) cands) :=
  foldWolves_ordered ⟨le_refl _, le_refl _⟩ cands

/-- Claim C2: for every ordered hierarchy state and every candidate whose
fitness exactly equals the fitness of the alpha, beta or delta slot, the
cascading-insertion step of lines 116-140 leaves the whole state — fitness
values and dimension vectors — unchanged: every comparison in the source is
strict, so equality never triggers replacement. -/
theorem tie_break_stability (s : WolfState) (fit : Fitness) (dim : List ℚ)
    (hord : HierOrdered s)
    (heq : fit = s.alpha_wolf_fitness ∨ fit = s.beta_wolf_fitness ∨
      fit = s.delta_wolf_fitness) :
    updateWolf s fit dim = s := by
  obtain ⟨h1, h2⟩ := hord
  unfold updateWolf
  split_ifs with hb1 hb2 hb3
  · rcases heq with h | h | h
    · exact absurd (h ▸ hb1) (lt_irrefl _)
    · exact absurd (h ▸ hb1) (not_lt.mpr h1)
    · exact absurd (h ▸ hb1) (not_lt.mpr (le_trans h1 h2))
  · rcases heq with h | h | h
    · exact absurd (h ▸ hb2.1) (lt_irrefl _)
    · exact absurd (h ▸ hb2.2) (lt_irrefl _)
    · exact absurd hb2.2 (not_lt.mpr (h ▸ h2))
  · rcases heq with h | h | h
    · exact absurd hb3.1 (not_lt.mpr (h ▸ h1))
    · exact absurd (h ▸ hb3.1) (lt_irrefl _)
    · exact absurd (h ▸ hb3.2) (lt_irrefl _)
  · rfl

theorem tie_break_stability_witness :
    updateWolf
      { alpha_wolf_fitness := ((1 : ℚ) : Fitness)
        beta_wolf_fitness := ((2 : ℚ) : Fitness)
        delta_wolf_fitness := ((3 : ℚ) : Fitness)
        alpha_wolf_dimension := [1, 0]
        beta_wolf_dimension := [0, 1]
        delta_wolf_dimension := [1, 1] } ((2 : ℚ) : Fitness) [0, 0] =
      { alpha_wolf_fitness := ((1 : ℚ) : Fitness)
        beta_wolf_fitness := ((2 : ℚ) : Fitness)
        delta_wolf_fitness := ((3 : ℚ) : Fitness)
        alpha_wolf_dimension := [1, 0]
        beta_wolf_dimension := [0, 1]
        delta_wolf_dimension := [1, 1] } :=
  tie_break_stability _ _ _ ⟨by decide, by decide⟩ (Or.inr (Or.inl rfl))

/-- Insert an index into a list of indexes kept in ascending order of their
scores (helper implementing the comparison sort behind `np.argsort`). -/
def insertIdx (scores : List ℚ) (i : ℕ) : List ℕ → List ℕ
  | [] => [i]
  | j :: rest =>
    if scores.getD i 0 ≤ scores.getD j 0 then i :: j :: rest
    else j :: insertIdx scores i rest

/-- `np.argsort(self.fitness_scores)` (line 114): indexes of the scores sorted
by ascending score value. -/
def argsortAsc (scores : List ℚ) : List ℕ :=
  (List.range scores.length).foldr (insertIdx scores) []

/-- `np.argsort(self.fitness_scores)[:3]` (line 114): the top-3 (lowest-score)
indexes in ascending-score order. -/
def topThreeFitnessIndexes (scores : List ℚ) : List ℕ :=
  (argsortAsc scores).take 3

/-- The candidate list fed to the hierarchy update: the zip of the top-3
fitness values with the corresponding individuals (lines 116-119). -/
def topThreeCandidates (scores : List ℚ) (individuals : List (List ℚ)) :
    List (Fitness × List ℚ) :=
  (topThreeFitnessIndexes scores).map
    (fun i => (((scores.getD i 0 : ℚ) : Fitness), individuals.getD i []))

/-- Claim C8: end-to-end hierarchy scenario. In a minimizing run with
`population_size = 4` and `n_features = 3`, if iteration 0 produces fitness
scores `[5, 2, 8, 1]`, the top-3 selection of line 114 picks indexes
`[3, 1, 0]` (scores 1, 2, 5 in ascending order), and folding those candidates
into the initial hierarchy yields `alpha_wolf_fitness = 1`,
`beta_wolf_fitness = 2`, `delta_wolf_fitness = 5`, each slot's dimension
vector taken from the corresponding individual. -/
theorem end_to_end_hierarchy_scenario (d0 d1 d2 d3 : List ℚ) :
    topThreeFitnessIndexes [5, 2, 8, 1] = [3, 1, 0] ∧
    foldWolves (initWolfState 3)
        (topThreeCandidates [5, 2, 8, 1] [d0, d1, d2, d3]) =
      { alpha_wolf_fitness := ((1 : ℚ) : Fitness)
        beta_wolf_fitness := ((2 : ℚ) : Fitness)
        delta_wolf_fitness := ((5 : ℚ) : Fitness)
        alpha_wolf_dimension := d3
        beta_wolf_dimension := d1
        delta_wolf_dimension := d0 } := by
  constructor
  · decide
  · have hc : topThreeCandidates [5, 2, 8, 1] [d0, d1, d2, d3] =
        [(((1 : ℚ) : Fitness), d3), (((2 : ℚ) : Fitness), d1),
          (((5 : ℚ) : Fitness), d0)] := rfl
    rw [hc]
    rfl

/-- The convergence coefficient of line 108:
`a = 2 - 2 * ((i + 1) / self.n_iteration)` with zero-based iteration index
`i`. -/
def aCoef (i n_iteration : ℕ) : ℚ :=
  2 - 2 * (((i : ℚ) + 1) / (n_iteration : ℚ))

/-- Claim C5: the convergence schedule. For every positive budget
`n_iteration` the coefficient equals exactly `2 - 2 * (i + 1) / n_iteration`;
`aCoef 0 1 = 0`; the coefficient stays in `[0, 2]` for `i < n_iteration`; and
it is monotonically non-increasing in the iteration index. -/
theorem convergence_schedule (n : ℕ) (hn : 0 < n) :
    (∀ i : ℕ, aCoef i n = 2 - 2 * ((i : ℚ) + 1) / (n : ℚ)) ∧
    aCoef 0 1 = 0 ∧
    (∀ i : ℕ, i < n → 0 ≤ aCoef i n ∧ aCoef i n ≤ 2) ∧
    (∀ i j : ℕ, i ≤ j → aCoef j n ≤ aCoef i n) := by
  have hn' : (0 : ℚ) < (n : ℚ) := by exact_mod_cast hn
  refine ⟨fun i => by unfold aCoef; ring, by norm_num [aCoef], ?_, ?_⟩
  · intro i hi
    constructor
    · have hle : ((i : ℚ) + 1) / (n : ℚ) ≤ 1 := by
        rw [div_le_one hn']
        exact_mod_cast Nat.succ_le_of_lt hi
      unfold aCoef; linarith
    · have hnn : (0 : ℚ) ≤ ((i : ℚ) + 1) / (n : ℚ) := by positivity
      unfold aCoef; linarith
  · intro i j hij
    have h : ((i : ℚ) + 1) / (n : ℚ) ≤ ((j : ℚ) + 1) / (n : ℚ) := by
      gcongr
    unfold aCoef
    linarith

theorem convergence_schedule_witness :
    aCoef 0 1 = 0 ∧ (0 ≤ aCoef 2 5 ∧ aCoef 2 5 ≤ 2) ∧ aCoef 3 5 ≤ aCoef 2 5 :=
  ⟨(convergence_schedule 1 (by norm_num)).2.1,
   (convergence_schedule 5 (by norm_num)).2.2.1 2 (by norm_num),
   (convergence_schedule 5 (by norm_num)).2.2.2 2 3 (by norm_num)⟩

/-- A `population_size × n_features` matrix of rationals, as produced by the
`np.random.random((self.population_size, X_train.shape[50]))` draws. -/
abbrev Mat (P F : ℕ) := Fin P → Fin F → ℚ

/-- The sigmoid-gated Bernoulli draw inside a method-1 proposal
(`np.where(self.sigmoid(A1 * d) > np.random.uniform(...), 1, 0)`,
lines 170-175): 1 exactly when the sigmoid of the gate coefficient times the
distance strictly exceeds the fresh uniform draw. The `sigmoid` transfer
function is an external collaborator of the base class and is kept abstract. -/
def sigmoidGate (sigmoid : ℚ → ℚ) (a d u : ℚ) : ℚ :=
  if sigmoid (a * d) > u then 1 else 0

/-- One cell of a method-1 binary proposal `Y_k` (lines 167-180): the leader's
bit plus the sigmoid-gated draw, thresholded with `>= 1`. -/
def proposalCell (sigmoid : ℚ → ℚ) (leaderBit a d u : ℚ) : ℚ :=
  if leaderBit + sigmoidGate sigmoid a d u ≥ 1 then 1 else 0

/-- A method-1 proposal matrix (`Y1`/`Y2`/`Y3` of lines 166-208): the leader
vector is broadcast across the population dimension; `Agate` is the gate
coefficient matrix actually passed at the call site — the source passes `A1`
for all three leaders. -/
def method1Proposal (sigmoid : ℚ → ℚ) {P F : ℕ} (leaderDim : Fin F → ℚ)
    (Agate dLead U : Mat P F) : Mat P F :=
  fun p f => proposalCell sigmoid (leaderDim f) (Agate p f) (dLead p f) (U p f)

/-- The method-1 population update (lines 166-214). The three proposals are
built exactly as in the source: `Y1` from `sigmoid(A1 * d_alpha)`, `Y2` from
`sigmoid(A1 * d_beta)` and `Y3` from `sigmoid(A1 * d_delta)` — the source
gates all three with `A1`, so the separately drawn `A2` and `A3` (lines 148,
152) are left unused by this method. The final population is the per-cell
three-way dispatch on one fresh uniform matrix `R` (line 209):
`r < 1/3 → Y1`, `1/3 ≤ r < 2/3 → Y2`, `r ≥ 2/3 → Y3` (lines 210-214); the
three masks cover every cell, so no old bit survives. -/
def method1NewPop (sigmoid : ℚ → ℚ) {P F : ℕ}
    (alphaDim betaDim deltaDim : Fin F → ℚ)
    (A1 A2 A3 dAlpha dBeta dDelta U1 U2 U3 R : Mat P F) : Mat P F :=
  fun p f =>
    if R p f < 1 / 3 then method1Proposal sigmoid alphaDim A1 dAlpha U1 p f
    else if R p f < 2 / 3 then method1Proposal sigmoid betaDim A1 dBeta U2 p f
    else method1Proposal sigmoid deltaDim A1 dDelta U3 p f

/-- The method-2 population update (lines 155-164): continuous candidates
`X1 = |alpha - A1 * d_alpha|`, `X2 = |beta - A2 * d_beta|`,
`X3 = |delta - A3 * d_delta|` are averaged, passed through the sigmoid, and
binarized against one fresh uniform matrix with `<=`
(`np.where(np.random.uniform(...) <= self.sigmoid((X1+X2+X3)/3), 1, 0)`).
The old population `individuals` is in scope but never read by this block. -/
def method2NewPop (sigmoid : ℚ → ℚ) {P F : ℕ}
    (alphaDim betaDim deltaDim : Fin F → ℚ)
    (A1 A2 A3 dAlpha dBeta dDelta U : Mat P F) (individuals : Mat P F) :
    Mat P F :=
  fun p f =>
    if U p f ≤ sigmoid ((|alphaDim f - A1 p f * dAlpha p f| +
        |betaDim f - A2 p f * dBeta p f| +
        |deltaDim f - A3 p f * dDelta p f|) / 3) then 1 else 0

theorem proposalCell_eq_one_iff (sigmoid : ℚ → ℚ) {b : ℚ} (a d u : ℚ)
    (hb : b = 0 ∨ b = 1) :
    proposalCell sigmoid b a d u = 1 ↔ b = 1 ∨ sigmoid (a * d) > u := by
  unfold proposalCell sigmoidGate
  rcases hb with rfl | rfl <;> by_cases hg : sigmoid (a * d) > u <;>
    simp [hg]

/-- Claim C4: the method-1 proposal formula with the alpha-coefficient quirk.
For each leader `k ∈ {alpha, beta, delta}` the proposal cell, as invoked by
`method1NewPop`, equals 1 iff the leader's bit is 1 or the sigmoid-gated draw
fires, and the gate for all three proposals — including `Y2` and `Y3` — is
`sigmoid (A1 * d_k)`, built from the alpha-associated coefficient `A1`; the
update is moreover entirely independent of the separately drawn `A2`, `A3`. -/
theorem method1_alpha_coefficient_quirk (sigmoid : ℚ → ℚ) {P F : ℕ}
    (alphaDim betaDim deltaDim : Fin F → ℚ)
    (A1 A2 A3 dAlpha dBeta dDelta U1 U2 U3 R : Mat P F) (p : Fin P) (f : Fin F)
    (ha : alphaDim f = 0 ∨ alphaDim f = 1)
    (hb : betaDim f = 0 ∨ betaDim f = 1)
    (hd : deltaDim f = 0 ∨ deltaDim f = 1) :
    (method1Proposal sigmoid alphaDim A1 dAlpha U1 p f = 1 ↔
      alphaDim f = 1 ∨ sigmoid (A1 p f * dAlpha p f) > U1 p f) ∧
    (method1Proposal sigmoid betaDim A1 dBeta U2 p f = 1 ↔
      betaDim f = 1 ∨ sigmoid (A1 p f * dBeta p f) > U2 p f) ∧
    (method1Proposal sigmoid deltaDim A1 dDelta U3 p f = 1 ↔
      deltaDim f = 1 ∨ sigmoid (A1 p f * dDelta p f) > U3 p f) ∧
    (∀ A2' A3' : Mat P F,
      method1NewPop sigmoid alphaDim betaDim deltaDim
          A1 A2' A3' dAlpha dBeta dDelta U1 U2 U3 R =
        method1NewPop sigmoid alphaDim betaDim deltaDim
          A1 A2 A3 dAlpha dBeta dDelta U1 U2 U3 R) :=
  ⟨proposalCell_eq_one_iff sigmoid _ _ _ ha,
   proposalCell_eq_one_iff sigmoid _ _ _ hb,
   proposalCell_eq_one_iff sigmoid _ _ _ hd,
   fun _ _ => rfl⟩

theorem method1_alpha_coefficient_quirk_witness :
    method1Proposal (fun x => x) (fun _ : Fin 1 => (1 : ℚ))
      (fun _ _ => (1 : ℚ)) (fun _ _ => (1 : ℚ)) (fun _ _ => (0 : ℚ))
      (0 : Fin 1) (0 : Fin 1) = 1 :=
  ((method1_alpha_coefficient_quirk (fun x => x)
      (fun _ : Fin 1 => (1 : ℚ)) (fun _ => (0 : ℚ)) (fun _ => (0 : ℚ))
      (fun _ _ => (1 : ℚ)) (fun _ _ => (0 : ℚ)) (fun _ _ => (0 : ℚ))
      (fun _ _ => (1 : ℚ)) (fun _ _ => (0 : ℚ)) (fun _ _ => (0 : ℚ))
      (fun _ _ => (0 : ℚ)) (fun _ _ => (0 : ℚ)) (fun _ _ => (0 : ℚ))
      (fun _ _ => (0 : ℚ)) 0 0
      (Or.inr rfl) (Or.inl rfl) (Or.inl rfl)).1).mpr (Or.inl rfl)

/-- Claim C6: method-2 postcondition. Every output cell is exactly 0 or 1; a
cell is 1 iff its fresh uniform draw is `≤ sigmoid ((X1 + X2 + X3) / 3)` with
`X_k = |leader_k - A_k * d_k|`; and the output never reads the old population
(it is invariant under replacing `individuals`), so no old bit is retained.
The output has the population's shape `P × F` by the type of `Mat P F`. -/
theorem method2_postcondition (sigmoid : ℚ → ℚ) {P F : ℕ}
    (alphaDim betaDim deltaDim : Fin F → ℚ)
    (A1 A2 A3 dAlpha dBeta dDelta U individuals : Mat P F) :
    (∀ (p : Fin P) (f : Fin F),
      (method2NewPop sigmoid alphaDim betaDim deltaDim
          A1 A2 A3 dAlpha dBeta dDelta U individuals p f = 0 ∨
        method2NewPop sigmoid alphaDim betaDim deltaDim
          A1 A2 A3 dAlpha dBeta dDelta U individuals p f = 1) ∧
      (method2NewPop sigmoid alphaDim betaDim deltaDim
          A1 A2 A3 dAlpha dBeta dDelta U individuals p f = 1 ↔
        U p f ≤ sigmoid ((|alphaDim f - A1 p f * dAlpha p f| +
          |betaDim f - A2 p f * dBeta p f| +
          |deltaDim f - A3 p f * dDelta p f|) / 3))) ∧
    (∀ individuals' : Mat P F,
      method2NewPop sigmoid alphaDim betaDim deltaDim
          A1 A2 A3 dAlpha dBeta dDelta U individuals' =
        method2NewPop sigmoid alphaDim betaDim deltaDim
          A1 A2 A3 dAlpha dBeta dDelta U individuals) := by
  refine ⟨fun p f => ?_, fun _ => rfl⟩
  unfold method2NewPop
  by_cases h : U p f ≤ sigmoid ((|alphaDim f - A1 p f * dAlpha p f| +
      |betaDim f - A2 p f * dBeta p f| +
      |deltaDim f - A3 p f * dDelta p f|) / 3) <;>
    simp [h]

/-- Claim C7: the method-1 three-way dispatch. At each population cell, with
the single per-cell uniform draw `R p f`, the new population value equals the
`Y1` proposal's value when `r < 1/3`, the `Y2` value when `1/3 ≤ r < 2/3`, and
the `Y3` value when `r ≥ 2/3`; and for every `r` in `[0, 1)` exactly one of
the three ranges applies. -/
theorem method1_three_way_dispatch (sigmoid : ℚ → ℚ) {P F : ℕ}
    (alphaDim betaDim deltaDim : Fin F → ℚ)
    (A1 A2 A3 dAlpha dBeta dDelta U1 U2 U3 R : Mat P F)
    (p : Fin P) (f : Fin F) :
    (R p f < 1 / 3 →
      method1NewPop sigmoid alphaDim betaDim deltaDim
          A1 A2 A3 dAlpha dBeta dDelta U1 U2 U3 R p f =
        method1Proposal sigmoid alphaDim A1 dAlpha U1 p f) ∧
    (1 / 3 ≤ R p f → R p f < 2 / 3 →
      method1NewPop sigmoid alphaDim betaDim deltaDim
          A1 A2 A3 dAlpha dBeta dDelta U1 U2 U3 R p f =
        method1Proposal sigmoid betaDim A1 dBeta U2 p f) ∧
    (2 / 3 ≤ R p f →
      method1NewPop sigmoid alphaDim betaDim deltaDim
          A1 A2 A3 dAlpha dBeta dDelta U1 U2 U3 R p f =
        method1Proposal sigmoid deltaDim A1 dDelta U3 p f) ∧
    (∀ r : ℚ, 0 ≤ r → r < 1 →
      (r < 1 / 3 ∧ ¬(1 / 3 ≤ r ∧ r < 2 / 3) ∧ ¬(2 / 3 ≤ r)) ∨
      (¬(r < 1 / 3) ∧ (1 / 3 ≤ r ∧ r < 2 / 3) ∧ ¬(2 / 3 ≤ r)) ∨
      (¬(r < 1 / 3) ∧ ¬(1 / 3 ≤ r ∧ r < 2 / 3) ∧ (2 / 3 ≤ r))) := by
  refine ⟨fun h1 => ?_, fun h1 h2 => ?_, fun h1 => ?_, fun r h0 h1 => ?_⟩
  · unfold method1NewPop
    rw [if_pos h1]
  · unfold method1NewPop
    rw [if_neg (not_lt.mpr h1), if_pos h2]
  · unfold method1NewPop
    rw [if_neg (by linarith), if_neg (not_lt.mpr h1)]
  · by_cases ha : r < 1 / 3
    · exact Or.inl ⟨ha, fun hc => absurd ha (not_lt.mpr hc.1), by linarith⟩
    · by_cases hc : r < 2 / 3
      · exact Or.inr (Or.inl ⟨ha, ⟨not_lt.mp ha, hc⟩, by linarith⟩)
      · exact Or.inr (Or.inr ⟨ha, fun hx => absurd hx.2 hc, not_lt.mp hc⟩)

theorem method1_three_way_dispatch_witness :
    method1NewPop (fun x => x) (fun _ : Fin 1 => (1 : ℚ))
        (fun _ => (0 : ℚ)) (fun _ => (0 : ℚ))
        (fun _ _ => (1 : ℚ)) (fun _ _ => (0 : ℚ)) (fun _ _ => (0 : ℚ))
        (fun _ _ => (1 : ℚ)) (fun _ _ => (0 : ℚ)) (fun _ _ => (0 : ℚ))
        (fun _ _ => (0 : ℚ)) (fun _ _ => (0 : ℚ)) (fun _ _ => (0 : ℚ))
        (fun _ _ => (1 / 2 : ℚ)) (0 : Fin 1) (0 : Fin 1) =
      method1Proposal (fun x => x) (fun _ : Fin 1 => (0 : ℚ))
        (fun _ _ => (1 : ℚ)) (fun _ _ => (0 : ℚ)) (fun _ _ => (0 : ℚ))
        (0 : Fin 1) (0 : Fin 1) :=
  ((method1_three_way_dispatch (fun x => x) (fun _ : Fin 1 => (1 : ℚ))
      (fun _ => (0 : ℚ)) (fun _ => (0 : ℚ))
      (fun _ _ => (1 : ℚ)) (fun _ _ => (0 : ℚ)) (fun _ _ => (0 : ℚ))
      (fun _ _ => (1 : ℚ)) (fun _ _ => (0 : ℚ)) (fun _ _ => (0 : ℚ))
      (fun _ _ => (0 : ℚ)) (fun _ _ => (0 : ℚ)) (fun _ _ => (0 : ℚ))
      (fun _ _ => (1 / 2 : ℚ)) 0 0).2.1) (by norm_num) (by norm_num)

/-- The Python exceptions that the modelled code paths can raise. -/
inductive PyErr
  | valueError (msg : String)
  | indexError (msg : String)
deriving DecidableEq

/-- `X_train.shape[i]`: indexing the shape tuple of the training frame. A 2-D
`DataFrame` has a length-2 shape tuple; indexing past the end raises
`IndexError`, as Python tuple indexing does. -/
def shapeGet (shape : List ℕ) (i : ℕ) : Except PyErr ℕ :=
  match shape.get? i with
  | some v => .ok v
  | none => .error (.indexError "tuple index out of range")

/-- The method check of `GreyWolfOptimization._check_params` (lines 57-60):
`if method not in [1, 2]: raise ValueError("method accepts only 1,2 ")`. The
preceding `super()._check_params` call belongs to the excluded base framework
(spec §1) and is treated as succeeding. -/
def checkParamsMethod (method : ℤ) : Except PyErr Unit :=
  if method = 1 ∨ method = 2 then .ok ()
  else .error (.valueError "method accepts only 1,2 ")

/-- The prelude of `fit` before the iteration loop: `self._check_params(...)`
(line 84) followed by the first feature-count read
`np.ones(X_train.shape[50])` at line 90 — the feature count is read at tuple
index 50, not 1. On success it returns the feature count used for the
best-dimension and wolf-slot state arrays (lines 90, 94, 96-98); the same
index-50 read recurs at every random-matrix allocation inside the loop
(lines 143-153, 160, 172, 186, 200, 209). -/
def fitPrelude (method : ℤ) (shape : List ℕ) : Except PyErr ℕ :=
  match checkParamsMethod method with
  | .error e => .error e
  | .ok _ => shapeGet shape 50

/-- Claim C3: for every training frame whose shape tuple has fewer than 51
entries — in particular every ordinary 2-D `DataFrame` of shape
`(n_samples, n_features)` — a `fit` call that passes parameter validation
raises `IndexError` while initializing the best-dimension and wolf-slot
state, before the first iteration ever runs, because the feature count is
read as `X_train.shape[50]`. -/
theorem fit_shape50_index_error (method : ℤ) (shape : List ℕ)
    (hm : method = 1 ∨ method = 2) (hlen : shape.length < 51) :
    fitPrelude method shape = .error (.indexError "tuple index out of range") := by
  unfold fitPrelude checkParamsMethod shapeGet
  rw [if_pos hm]
  rw [List.get?_eq_none.mpr (by omega)]

theorem fit_shape50_index_error_witness :
    fitPrelude 1 [100, 5] = .error (.indexError "tuple index out of range") :=
  fit_shape50_index_error 1 [100, 5] (Or.inl rfl) (by norm_num)

/-- Claim C10: configuration validation of the method flag. For every method
value outside `{1, 2}`, `fit` rejects the configuration with the
`ValueError` of `_check_params` before any state initialization or iteration
happens, and for method 1 or 2 the check passes. -/
theorem method_flag_validation (method : ℤ) :
    (method ≠ 1 → method ≠ 2 → ∀ shape : List ℕ,
      fitPrelude method shape = .error (.valueError "method accepts only 1,2 ")) ∧
    (method = 1 ∨ method = 2 → checkParamsMethod method = .ok ()) := by
  constructor
  · intro h1 h2 shape
    unfold fitPrelude checkParamsMethod
    rw [if_neg (by tauto)]
  · intro hm
    unfold checkParamsMethod
    rw [if_pos hm]

theorem method_flag_validation_witness :
    fitPrelude 3 [10, 4] = .error (.valueError "method accepts only 1,2 ") ∧
      checkParamsMethod 2 = .ok () :=
  ⟨(method_flag_validation 3).1 (by decide) (by decide) [10, 4],
   (method_flag_validation 2).2 (Or.inr rfl)⟩

/-- The iteration loop of `fit` restricted to its control flow (lines
100-107): `clock k` is the `k`-th `time.time()` reading — `clock 0` at the
deadline setup of lines 100-103, `clock (i + 1)` at the top-of-loop deadline
check for iteration `i`, which precedes the fitness evaluation of line 110.
The pair returned is the number of iterations whose body ran and whether the
`warnings.warn("Timeout occured")` + `break` of lines 106-107 fired; the
break is an early, non-erroring exit. -/
def runLoop (timeout : Option ℚ) (deadline : ℚ) (clock : ℕ → ℚ) :
    ℕ → ℕ → ℕ × Bool
  | _, 0 => (0, false)
  | i, fuel + 1 =>
    if timeout.isSome ∧ clock (i + 1) > deadline then (0, true)
    else
      let rest := runLoop timeout deadline clock (i + 1) fuel
      (rest.1 + 1, rest.2)

/-- The loop of `fit` with its deadline setup (lines 100-107):
`timeout_upper_limit = time.time() + self.timeout` when a timeout is set,
else `time.time()` (which the check then never reads, its first conjunct
being false). -/
def fitLoop (n_iteration : ℕ) (timeout : Option ℚ) (clock : ℕ → ℚ) :
    ℕ × Bool :=
  runLoop timeout (clock 0 + timeout.getD 0) clock 0 n_iteration

theorem runLoop_succ (timeout : Option ℚ) (deadline : ℚ) (clock : ℕ → ℚ)
    (i fuel : ℕ) :
    runLoop timeout deadline clock i (fuel + 1) =
      if timeout.isSome ∧ clock (i + 1) > deadline then (0, true)
      else ((runLoop timeout deadline clock (i + 1) fuel).1 + 1,
        (runLoop timeout deadline clock (i + 1) fuel).2) := rfl

theorem runLoop_none (deadline : ℚ) (clock : ℕ → ℚ) (i fuel : ℕ) :
    runLoop none deadline clock i fuel = (fuel, false) := by
  induction fuel generalizing i with
  | zero => rfl
  | succ n ih => rw [runLoop_succ]; simp [ih]

/-- Claim C9: timeout behaviour. The deadline is checked once per iteration at
the top of the loop, before the fitness evaluation, and a passed deadline
exits the loop with a warning flag rather than an exception. With
`n_iteration = 1000` and `timeout = 0`, provided wall-clock time advances
across the first iteration (`clock 0 < clock 2`), at most one iteration body
runs and the timeout warning fires; with `timeout = None`, the check never
fires and exactly `n_iteration` iterations run with no warning. -/
theorem timeout_behaviour (clock : ℕ → ℚ) (hadv : clock 0 < clock 2) :
    ((fitLoop 1000 (some 0) clock).1 ≤ 1 ∧
      (fitLoop 1000 (some 0) clock).2 = true) ∧
    (∀ (n : ℕ) (c : ℕ → ℚ), fitLoop n none c = (n, false)) := by
  constructor
  · have h1000 : (1000 : ℕ) = 998 + 1 + 1 := by norm_num
    unfold fitLoop
    rw [h1000, runLoop_succ]
    by_cases hc1 : clock (0 + 1) > clock 0 + (some (0 : ℚ)).getD 0
    · rw [if_pos ⟨rfl, hc1⟩]
      exact ⟨by norm_num, rfl⟩
    · rw [if_neg (by simpa using hc1)]
      rw [runLoop_succ]
      rw [if_pos ⟨rfl, by simpa using hadv⟩]
      exact ⟨by norm_num, rfl⟩
  · intro n c
    unfold fitLoop
    exact runLoop_none _ _ _ _

theorem timeout_behaviour_witness :
    ((fitLoop 1000 (some 0) (fun k => (k : ℚ))).1 ≤ 1 ∧
      (fitLoop 1000 (some 0) (fun k => (k : ℚ))).2 = true) ∧
    fitLoop 5 none (fun k => (k : ℚ)) = (5, false) :=
  ⟨(timeout_behaviour (fun k => (k : ℚ)) (by norm_num)).1,
   (timeout_behaviour (fun k => (k : ℚ)) (by norm_num)).2 5 (fun k => (k : ℚ))⟩

end ZoofsGWO
